import Mathlib

/-!
Verification of the lead-management dashboard logic (src/app.py).

The Python source is a Streamlit application over a hosted table store.
We embed the pure computations the spec describes:
  * the weekly carry-forward projection (spec section 4.1),
  * the team / member progress computation of the Dashboard tab,
  * the lead-summary aggregation (groupby owner and week),
  * `insert_leads` and `update_sales` from the Daily Upload tab,
  * the auto carry-forward note condition of the Dashboard tab.
Database rows become Lean structures, dataframes become lists of rows,
Python floats become rationals, and the Supabase calls become explicit
list transformations.
-/

/-- Modelled from the spec: the multi-period carry-forward projection of
section 4.1 is not implemented in `src/app.py` (the Dashboard only computes
a single-week shortfall note); the spec gives its algorithm as pseudocode.
`carryForward T carry achieved` returns, in period order, the pairs
(effective target, shortfall) where the effective target of a period is the
base target `T` plus the carry from the previous period, and the shortfall
is `max 0 (effective target - achieved)`, which becomes the next carry. -/
def carryForward (T : Int) : Int → List Int → List (Int × Int)
  | _, [] => []
  | carry, a :: rest =>
    let eff := T + carry
    let sh := max 0 (eff - a)
    (eff, sh) :: carryForward T sh rest

/-- Team progress percentage, src/app.py line 148:
`progress = (total_converted / total_target * 100) if total_target > 0 else 0.0`. -/
def teamProgressPct (total_converted total_target : ℚ) : ℚ :=
  if total_target > 0 then total_converted / total_target * 100 else 0

/-- Team progress bar value, src/app.py line 150:
`st.progress(min(progress / 100, 1.0))`. -/
def teamProgressBar (total_converted total_target : ℚ) : ℚ :=
  min (teamProgressPct total_converted total_target / 100) 1

/-- Member progress percentage, src/app.py line 198:
`progress_m = (converted / m_target * 100) if m_target > 0 else 0.0`. -/
def memberProgressPct (converted m_target : ℚ) : ℚ :=
  if m_target > 0 then converted / m_target * 100 else 0

/-- Member progress bar width in percent, src/app.py line 214:
`width:{min(progress_m,100)}%`. -/
def memberBarWidth (converted m_target : ℚ) : ℚ :=
  min (memberProgressPct converted m_target) 100

/-- The fraction of the member progress bar that is filled: the rendered
width divided by the full 100% width. -/
def memberBarFraction (converted m_target : ℚ) : ℚ :=
  memberBarWidth converted m_target / 100

/-- Per-lead sales value, src/app.py line 272:
`per_lead_value = float(sales_value) / len(ids)` (used when `ids` is
non-empty). -/
def per_lead_value (sales_value : ℚ) (n : Nat) : ℚ :=
  sales_value / (n : ℚ)

/-- One row of the Dashboard `lead_summary` dataframe, src/app.py lines
85-89: a group key (owner_id, week) with aggregated converted count.  The
`week` is `none` for rows whose `created_at` was missing or unparseable
(`pd.to_datetime(..., errors="coerce")` yields NaT, hence a NaN week kept
by `dropna=False`). -/
structure SummaryRow where
  owner_id : String
  week : Option Nat
  converted : Nat
deriving DecidableEq, Repr

/-- Team-level weekly converted total, src/app.py lines 140-144: keep the
summary rows whose `owner_id` is in the team's member ids and whose `week`
equals the current week, then sum the `converted` column. -/
def teamConvertedTotal (summary : List SummaryRow) (memberIds : List String)
    (w : Nat) : Nat :=
  ((summary.filter fun r => memberIds.contains r.owner_id && r.week == some w).map
    (fun r => r.converted)).sum

/-- Member-level weekly converted count, src/app.py lines 193-196: keep the
summary rows with this member's id and the current week, then sum
`converted`. -/
def memberConvertedCount (summary : List SummaryRow) (m : String) (w : Nat) : Nat :=
  ((summary.filter fun r => r.owner_id == m && r.week == some w).map
    (fun r => r.converted)).sum

/-- A lead row as preprocessed by the Dashboard, src/app.py lines 75-83:
`week` is `none` when `created_at` is missing or unparseable
(`errors="coerce"` produces NaT and `.dt.isocalendar().week` a NaN). -/
structure DashLead where
  owner_id : String
  week : Option Nat
  converted : Bool
  sales_value : ℚ
deriving DecidableEq, Repr

/-- Converted-lead count of an owner in a given week: the composition of
the Dashboard groupby on (owner_id, week) with the `week == current_week`
filters (src/app.py lines 85-89 then 140-141 and 193-194), expressed
directly on the preprocessed lead rows. -/
def weeklyConvertedCount (leads : List DashLead) (owner : String) (w : Nat) : Nat :=
  (leads.filter fun l => l.owner_id == owner && l.week == some w).countP
    (fun l => l.converted)

/-- Weekly lead count of an owner (the `total_leads=("id", "count")`
aggregate restricted to one week). -/
def weeklyLeadCount (leads : List DashLead) (owner : String) (w : Nat) : Nat :=
  (leads.filter fun l => l.owner_id == owner && l.week == some w).length

/-- Effective weekly target of a member after the Dashboard target merge,
src/app.py lines 102-115: a left merge of the targets table on the member
id followed by `fillna(0)`, so a member with no targets row gets 0. -/
def mergedWeeklyTarget (targets : List (String × ℚ)) (memberId : String) : ℚ :=
  match targets.find? (fun p => p.1 == memberId) with
  | some p => p.2
  | none => 0

/-- A row of the `leads` table as built by `insert_leads`, src/app.py
lines 241-247. -/
structure LeadInsertRow where
  team_id : String
  owner_id : String
  created_at : String
  converted : Bool
  sales_value : ℚ
deriving DecidableEq, Repr

/-- `insert_leads`, src/app.py lines 239-249: build one row per unit lead
count, each with the given team, owner and date, `converted = False` and
`sales_value = 0`, and insert them. -/
def insert_leads (team_id owner_id : String) (lead_count : Nat) (date : String) :
    List LeadInsertRow :=
  List.replicate lead_count
    { team_id := team_id, owner_id := owner_id, created_at := date,
      converted := false, sales_value := 0 }

/-- A persisted row of the `leads` table, as read and written by
`update_sales` (src/app.py lines 256-283). -/
structure Lead where
  id : Nat
  team_id : String
  owner_id : String
  created_at : String
  converted : Bool
  sales_value : ℚ
  updated_at : Option String
deriving DecidableEq, Repr

/-- The row filter of the `update_sales` select, src/app.py lines 262-266:
`.eq("team_id", team_id).eq("owner_id", owner_id).eq("converted", False)`. -/
def matchesUnconverted (team_id owner_id : String) (l : Lead) : Bool :=
  l.team_id == team_id && l.owner_id == owner_id && l.converted == false

/-- The ids selected by `update_sales`, src/app.py lines 261-270: ids of
rows matching team, owner and `converted = False`, limited to
`converted_count` rows. -/
def selectUnconverted (db : List Lead) (team_id owner_id : String)
    (converted_count : Nat) : List Nat :=
  ((db.filter (matchesUnconverted team_id owner_id)).map Lead.id).take converted_count

/-- Result of `update_sales`: the table afterwards, how many rows were
updated, and whether the no-leads warning was emitted instead. -/
structure SalesUpdateResult where
  db : List Lead
  updatedCount : Nat
  warned : Bool
deriving DecidableEq, Repr

/-- `update_sales`, src/app.py lines 256-283: select up to
`converted_count` unconverted leads of the member; if any were found,
divide `sales_value` evenly over them and update each selected row's
`converted`, `sales_value` and `updated_at` by id; otherwise warn and
touch nothing. -/
def update_sales (db : List Lead) (team_id owner_id : String)
    (converted_count : Nat) (sales_value : ℚ) (date : String) : SalesUpdateResult :=
  let ids := selectUnconverted db team_id owner_id converted_count
  if ids.isEmpty then
    { db := db, updatedCount := 0, warned := true }
  else
    let per := per_lead_value sales_value ids.length
    { db := db.map fun l =>
        if ids.contains l.id then
          { l with converted := true, sales_value := per, updated_at := some date }
        else l,
      updatedCount := ids.length,
      warned := false }

/-- A row of the normalized `notes` dataframe, src/app.py lines 64-69:
`week` is derived from `created_at` (`none` when that timestamp failed to
parse). -/
structure NoteRow where
  team_id : String
  note_type : String
  week : Option Nat
deriving DecidableEq, Repr

/-- The auto-note dedup check, src/app.py lines 157-159: a note already
exists for this team and the current week. -/
def noteExistsFor (notes : List NoteRow) (team_id : String) (w : Nat) : Bool :=
  notes.any fun n => n.team_id == team_id && n.week == some w

/-- The shortfall the Dashboard reports in the auto note, src/app.py line
155: `incomplete = max(total_target - total_converted, 0)`. -/
def incompleteLeads (total_target total_converted : ℚ) : ℚ :=
  max (total_target - total_converted) 0

/-- Whether a Dashboard render inserts an auto carry-forward note for a
team, src/app.py lines 153-169: the outer guard requires a positive team
target and progress below 100, the inner guard requires that no note for
this team and the current week exists and that the shortfall is positive. -/
def shouldInsertAutoNote (notes : List NoteRow) (team_id : String) (w : Nat)
    (total_target total_converted : ℚ) : Bool :=
  decide (total_target > 0) &&
    decide (teamProgressPct total_converted total_target < 100) &&
    !(noteExistsFor notes team_id w) &&
    decide (incompleteLeads total_target total_converted > 0)

/-- The team ids that get an auto note during one Dashboard render,
src/app.py lines 129-169: the loop visits each row of `teams_df` once and
applies the auto-note guard to the team's weekly totals.  A team is given
by (id, weekly target total, converted total). -/
def renderAutoNotes (notes : List NoteRow) (w : Nat)
    (teams : List (String × ℚ × ℚ)) : List String :=
  (teams.filter fun t => shouldInsertAutoNote notes t.1 w t.2.1 t.2.2).map
    (fun t => t.1)

/-! ## Carry-forward projection lemmas -/

theorem carryForward_length (T c : Int) (as : List Int) :
    (carryForward T c as).length = as.length := by
  induction as generalizing c with
  | nil => rfl
  | cons a rest ih => simp [carryForward, ih]

theorem carryForward_head (T c : Int) (as : List Int)
    (h : 0 < (carryForward T c as).length) :
    ((carryForward T c as).get ⟨0, h⟩).1 = T + c := by
  cases as with
  | nil => simp [carryForward] at h
  | cons a rest => simp [carryForward]

theorem carryForward_snd (T c : Int) (as : List Int) (i : Nat)
    (h : i < (carryForward T c as).length) (ha : i < as.length) :
    ((carryForward T c as).get ⟨i, h⟩).2
      = max 0 (((carryForward T c as).get ⟨i, h⟩).1 - as.get ⟨i, ha⟩) := by
  induction as generalizing c i with
  | nil => simp at ha
  | cons a rest ih =>
    cases i with
    | zero => simp [carryForward]
    | succ n =>
      have hn : n < (carryForward T (max 0 (T + c - a)) rest).length := by
        simpa [carryForward] using h
      have hna : n < rest.length := by simpa using ha
      simpa [carryForward] using ih (max 0 (T + c - a)) n hn hna

theorem carryForward_succ_fst (T c : Int) (as : List Int) (i : Nat)
    (h : i + 1 < (carryForward T c as).length)
    (h2 : i < (carryForward T c as).length) :
    ((carryForward T c as).get ⟨i + 1, h⟩).1
      = T + ((carryForward T c as).get ⟨i, h2⟩).2 := by
  induction as generalizing c i with
  | nil => simp [carryForward] at h
  | cons a rest ih =>
    cases i with
    | zero =>
      have hlen : 0 < (carryForward T (max 0 (T + c - a)) rest).length := by
        simpa [carryForward] using h
      simpa [carryForward] using carryForward_head T (max 0 (T + c - a)) rest hlen
    | succ n =>
      have hn : n + 1 < (carryForward T (max 0 (T + c - a)) rest).length := by
        simpa [carryForward] using h
      have hn2 : n < (carryForward T (max 0 (T + c - a)) rest).length := by
        simpa [carryForward] using h2
      simpa [carryForward] using ih (max 0 (T + c - a)) n hn hn2

/-- C1 (amended): over any sequence of periods with base target `T` and
achieved counts `as`, processed in order with initial carry 0, every
period's effective target is `T` plus the previous period's shortfall (the
first period's is `T` plus the zero initial shortfall), and every period's
shortfall is `max 0 (effective target - achieved)`; on base target 10 with
achieved [6, 12, 10] this yields the (effective target, shortfall) pairs
[(10, 4), (14, 2), (12, 2)] — not the [(10, 4), (14, 2), (2, 0)] of the
spec's example, which its own recurrence contradicts. -/
theorem c1_carry_forward_invariant (T : Int) (as : List Int) :
    (carryForward T 0 as).length = as.length ∧
    (∀ h : 0 < (carryForward T 0 as).length,
      ((carryForward T 0 as).get ⟨0, h⟩).1 = T + 0) ∧
    (∀ i (h : i + 1 < (carryForward T 0 as).length)
        (h2 : i < (carryForward T 0 as).length),
      ((carryForward T 0 as).get ⟨i + 1, h⟩).1
        = T + ((carryForward T 0 as).get ⟨i, h2⟩).2) ∧
    (∀ i (h : i < (carryForward T 0 as).length) (ha : i < as.length),
      ((carryForward T 0 as).get ⟨i, h⟩).2
        = max 0 (((carryForward T 0 as).get ⟨i, h⟩).1 - as.get ⟨i, ha⟩)) ∧
    carryForward 10 0 [6, 12, 10] = [(10, 4), (14, 2), (12, 2)] :=
  ⟨carryForward_length T 0 as,
   fun h => by simpa using carryForward_head T 0 as h,
   fun i h h2 => carryForward_succ_fst T 0 as i h h2,
   fun i h ha => carryForward_snd T 0 as i h ha,
   by decide⟩

theorem c1_carry_forward_invariant_witness :
    ((carryForward 10 0 [6, 12, 10]).get ⟨1, by decide⟩).1
        = 10 + ((carryForward 10 0 [6, 12, 10]).get ⟨0, by decide⟩).2 ∧
    carryForward 10 0 [6, 12, 10] = [(10, 4), (14, 2), (12, 2)] :=
  ⟨(c1_carry_forward_invariant 10 [6, 12, 10]).2.2.1 0 (by decide) (by decide),
   (c1_carry_forward_invariant 10 [6, 12, 10]).2.2.2.2⟩

/-- C1 counterexample: the spec's worked example contradicts its own
recurrence.  With base target 10 and achieved [6, 12, 10], the carry into
week 3 is the week-2 shortfall 2, so the week-3 effective target is
10 + 2 = 12 and its shortfall is max 0 (12 - 10) = 2; the projection is
therefore not the claimed [(10, 4), (14, 2), (2, 0)]. -/
theorem c1_spec_example_false :
    ((carryForward 10 0 [6, 12, 10]).get ⟨2, by decide⟩).1 = 12 ∧
    ((carryForward 10 0 [6, 12, 10]).get ⟨2, by decide⟩).2 = 2 ∧
    carryForward 10 0 [6, 12, 10] ≠ [(10, 4), (14, 2), (2, 0)] := by
  refine ⟨by decide, by decide, by decide⟩

/-! ## Progress bars -/

/-- C2: for any achieved `A ≥ 0` and target `T ≥ 0`, both the team
progress bar (src/app.py line 150) and the member bar fill fraction
(src/app.py line 214) are 0 when `T = 0`, and otherwise equal `A / T`
clamped to [0, 1]. -/
theorem c2_progress_clamped (A T : ℚ) (hA : 0 ≤ A) (hT : 0 ≤ T) :
    (T = 0 → teamProgressBar A T = 0 ∧ memberBarFraction A T = 0) ∧
    (T ≠ 0 → teamProgressBar A T = max 0 (min (A / T) 1) ∧
      memberBarFraction A T = max 0 (min (A / T) 1)) := by
  constructor
  · rintro rfl
    constructor <;>
      simp [teamProgressBar, teamProgressPct, memberBarFraction, memberBarWidth,
        memberProgressPct]
  · intro h
    have hT0 : 0 < T := lt_of_le_of_ne hT (Ne.symm h)
    have hAT : 0 ≤ A / T := div_nonneg hA hT
    have hmax : max 0 (min (A / T) 1) = min (A / T) 1 :=
      max_eq_right (le_min hAT zero_le_one)
    have hcan : A / T * 100 / 100 = A / T := by ring
    constructor
    · rw [teamProgressBar, teamProgressPct, if_pos hT0, hcan, hmax]
    · rw [memberBarFraction, memberBarWidth, memberProgressPct, if_pos hT0, hmax]
      rcases le_total (A / T) 1 with hle | hge
      · have h100 : A / T * 100 ≤ 100 := by nlinarith
        rw [min_eq_left h100, hcan, min_eq_left hle]
      · have h100 : (100 : ℚ) ≤ A / T * 100 := by nlinarith
        rw [min_eq_right h100, min_eq_right hge]
        norm_num

theorem c2_progress_clamped_witness :
    teamProgressBar 5 0 = 0 ∧ memberBarFraction 5 0 = 0 :=
  (c2_progress_clamped 5 0 (by norm_num) (by norm_num)).1 rfl

/-! ## Sales distribution -/

/-- C3: when `n > 0` leads are marked converted with aggregate sales value
`V`, each of the `n` leads is assigned `per_lead_value V n = V / n`
(src/app.py lines 272-277 write this one value to each selected row), the
`n` assigned values sum exactly to `V`, and 3 leads sharing a total of 300
each receive 100. -/
theorem c3_sales_distribution (V : ℚ) (n : Nat) (hn : 0 < n) :
    per_lead_value V n = V / (n : ℚ) ∧
    (List.replicate n (per_lead_value V n)).sum = V ∧
    per_lead_value 300 3 = 100 := by
  refine ⟨rfl, ?_, by norm_num [per_lead_value]⟩
  have hne : (n : ℚ) ≠ 0 := Nat.cast_ne_zero.mpr hn.ne'
  rw [List.sum_replicate, nsmul_eq_mul, per_lead_value]
  field_simp

theorem c3_sales_distribution_witness :
    (List.replicate 3 (per_lead_value 300 3)).sum = 300 ∧
    per_lead_value 300 3 = 100 :=
  ⟨(c3_sales_distribution 300 3 (by norm_num)).2.1,
   (c3_sales_distribution 300 3 (by norm_num)).2.2⟩

/-! ## Conservation of converted counts -/

theorem sum_map_single_owner (ids : List String) (x : String) (c : Nat)
    (h : ids.Nodup) :
    (ids.map fun m => if x = m then c else 0).sum
      = if x ∈ ids then c else 0 := by
  induction ids with
  | nil => simp
  | cons hd tl ih =>
    rcases List.nodup_cons.mp h with ⟨hmem, htl⟩
    by_cases hx : x = hd
    · subst hx
      simp [ih htl, hmem]
    · simp [hx, ih htl]

theorem memberConvertedCount_cons (r : SummaryRow) (rest : List SummaryRow)
    (m : String) (w : Nat) :
    memberConvertedCount (r :: rest) m w
      = (if r.owner_id = m ∧ r.week = some w then r.converted else 0)
        + memberConvertedCount rest m w := by
  by_cases hp : r.owner_id = m ∧ r.week = some w
  · simp [memberConvertedCount, List.filter_cons, hp]
  · simp [memberConvertedCount, List.filter_cons, hp]

theorem teamConvertedTotal_cons (r : SummaryRow) (rest : List SummaryRow)
    (ids : List String) (w : Nat) :
    teamConvertedTotal (r :: rest) ids w
      = (if r.owner_id ∈ ids ∧ r.week = some w then r.converted else 0)
        + teamConvertedTotal rest ids w := by
  by_cases hp : r.owner_id ∈ ids ∧ r.week = some w
  · simp [teamConvertedTotal, List.filter_cons, hp]
  · simp [teamConvertedTotal, List.filter_cons, hp]

/-- C4: for any lead summary, any duplicate-free list of team member ids
and any week, the sum of the per-member converted counts (src/app.py lines
193-196) equals the team-level converted total (src/app.py lines 140-144)
of the same week. -/
theorem c4_conservation (summary : List SummaryRow) (memberIds : List String)
    (w : Nat) (hnodup : memberIds.Nodup) :
    (memberIds.map fun m => memberConvertedCount summary m w).sum
      = teamConvertedTotal summary memberIds w := by
  induction summary with
  | nil => simp [memberConvertedCount, teamConvertedTotal]
  | cons r rest ih =>
    have hstep : ∀ m ∈ memberIds,
        memberConvertedCount (r :: rest) m w
          = (if r.owner_id = m ∧ r.week = some w then r.converted else 0)
            + memberConvertedCount rest m w :=
      fun m _ => memberConvertedCount_cons r rest m w
    rw [List.map_eq_map_iff.mpr hstep, List.sum_map_add, ih,
      teamConvertedTotal_cons]
    congr 1
    by_cases hw : r.week = some w
    · simp only [hw, and_true]
      exact sum_map_single_owner memberIds r.owner_id r.converted hnodup
    · simp [hw]

theorem c4_conservation_witness :
    (["u1", "u2"].map fun m =>
        memberConvertedCount
          [{ owner_id := "u1", week := some 3, converted := 2 },
           { owner_id := "u2", week := some 3, converted := 1 },
           { owner_id := "u1", week := none, converted := 5 }] m 3).sum
      = teamConvertedTotal
          [{ owner_id := "u1", week := some 3, converted := 2 },
           { owner_id := "u2", week := some 3, converted := 1 },
           { owner_id := "u1", week := none, converted := 5 }] ["u1", "u2"] 3 :=
  c4_conservation _ ["u1", "u2"] 3 (by decide)

/-! ## Lead insertion -/

/-- C5: `insert_leads` (src/app.py lines 239-249) builds exactly
`lead_count` rows, every one of which carries the given team, owner and
date and starts with `converted = false` and `sales_value = 0`, so each
freshly inserted lead satisfies the unconverted-leads-have-zero-sales
invariant. -/
theorem c5_insert_leads_rows (t o : String) (k : Nat) (d : String) :
    (insert_leads t o k d).length = k ∧
    ∀ r ∈ insert_leads t o k d,
      r.converted = false ∧ r.sales_value = 0 ∧ r.team_id = t ∧
        r.owner_id = o ∧ r.created_at = d := by
  refine ⟨List.length_replicate _ _, ?_⟩
  intro r hr
  have hmem := List.eq_of_mem_replicate hr
  subst hmem
  exact ⟨rfl, rfl, rfl, rfl, rfl⟩

theorem c5_insert_leads_rows_witness :
    (insert_leads "t1" "u1" 2 "2025-01-06").length = 2 ∧
    ((LeadInsertRow.mk "t1" "u1" "2025-01-06" false 0).converted = false ∧
      (LeadInsertRow.mk "t1" "u1" "2025-01-06" false 0).sales_value = 0 ∧
      (LeadInsertRow.mk "t1" "u1" "2025-01-06" false 0).team_id = "t1" ∧
      (LeadInsertRow.mk "t1" "u1" "2025-01-06" false 0).owner_id = "u1" ∧
      (LeadInsertRow.mk "t1" "u1" "2025-01-06" false 0).created_at = "2025-01-06") :=
  ⟨(c5_insert_leads_rows "t1" "u1" 2 "2025-01-06").1,
   (c5_insert_leads_rows "t1" "u1" 2 "2025-01-06").2
     (LeadInsertRow.mk "t1" "u1" "2025-01-06" false 0)
     (by simp [insert_leads, List.mem_replicate])⟩

/-! ## Sales update when no leads are available -/

/-- C6: when the member has no unconverted leads in the table,
`update_sales` (src/app.py lines 256-283) selects an empty id list, takes
the warning branch, performs no division and leaves the table unchanged. -/
theorem c6_update_sales_noop (db : List Lead) (t o : String) (c : Nat)
    (v : ℚ) (d : String)
    (h : (db.filter (matchesUnconverted t o)).length = 0) :
    update_sales db t o c v d = { db := db, updatedCount := 0, warned := true } := by
  have hnil : db.filter (matchesUnconverted t o) = [] := List.length_eq_zero.mp h
  have hids : selectUnconverted db t o c = [] := by
    simp [selectUnconverted, hnil]
  simp [update_sales, hids]

theorem c6_update_sales_noop_witness :
    update_sales [Lead.mk 1 "t1" "u1" "d" true 50 none] "t1" "u1" 2 300 "d2"
      = SalesUpdateResult.mk [Lead.mk 1 "t1" "u1" "d" true 50 none] 0 true :=
  c6_update_sales_noop _ "t1" "u1" 2 300 "d2" (by decide)

/-! ## Unparseable timestamps -/

/-- C7: a lead whose timestamp failed to parse (week `none`, the result of
`pd.to_datetime(..., errors="coerce")` in src/app.py lines 76-78)
contributes to no week's converted count and no week's lead count: the
weekly aggregation is total and simply never selects such a record. -/
theorem c7_unparseable_excluded (leads : List DashLead) (l : DashLead)
    (owner : String) (hl : l.week = none) :
    (∀ w, weeklyConvertedCount (l :: leads) owner w
        = weeklyConvertedCount leads owner w) ∧
    (∀ w, weeklyLeadCount (l :: leads) owner w
        = weeklyLeadCount leads owner w) := by
  constructor <;> intro w <;>
    simp [weeklyConvertedCount, weeklyLeadCount, List.filter_cons, hl]

theorem c7_unparseable_excluded_witness :
    weeklyConvertedCount [DashLead.mk "u1" none true 10] "u1" 3
      = weeklyConvertedCount [] "u1" 3 :=
  (c7_unparseable_excluded [] (DashLead.mk "u1" none true 10) "u1" rfl).1 3

/-! ## Default weekly target -/

/-- C8: a member with no row in the targets table gets weekly target 0
after the Dashboard's left merge and `fillna(0)` (src/app.py lines
102-115), and that default is non-negative, so the aggregation is defined
for every roster. -/
theorem c8_default_target (targets : List (String × ℚ)) (m : String)
    (h : ∀ p ∈ targets, p.1 ≠ m) :
    mergedWeeklyTarget targets m = 0 ∧ 0 ≤ mergedWeeklyTarget targets m := by
  have hfind : targets.find? (fun p => p.1 == m) = none := by
    rw [List.find?_eq_none]
    intro p hp
    simpa using h p hp
  constructor <;> simp [mergedWeeklyTarget, hfind]

theorem c8_default_target_witness :
    mergedWeeklyTarget [("u1", 10), ("u2", 5)] "u3" = 0 :=
  (c8_default_target [("u1", 10), ("u2", 5)] "u3" (by decide)).1

/-! ## Auto carry-forward note -/

/-- C9: the Dashboard inserts an auto carry-forward note for a team
exactly when the team's weekly target is positive, its progress is below
100%, its shortfall is positive and no note for that team and the current
week is already loaded (src/app.py lines 153-169); and since the render
loop visits each team row once, a render over duplicate-free team ids
inserts at most one auto note per team for the current week. -/
theorem c9_auto_note_guard (notes : List NoteRow) (team : String) (w : Nat)
    (T A : ℚ) (teams : List (String × ℚ × ℚ))
    (hnodup : (teams.map fun t => t.1).Nodup) :
    (shouldInsertAutoNote notes team w T A = true ↔
      (0 < T ∧ teamProgressPct A T < 100 ∧ 0 < incompleteLeads T A ∧
        noteExistsFor notes team w = false)) ∧
    (renderAutoNotes notes w teams).count team ≤ 1 := by
  constructor
  · constructor
    · intro hb
      simp only [shouldInsertAutoNote, Bool.and_eq_true, decide_eq_true_eq,
        Bool.not_eq_true'] at hb
      tauto
    · intro hp
      simp only [shouldInsertAutoNote, Bool.and_eq_true, decide_eq_true_eq,
        Bool.not_eq_true']
      tauto
  · have hsl : List.Sublist
        (teams.filter fun t => shouldInsertAutoNote notes t.1 w t.2.1 t.2.2) teams :=
      List.filter_sublist teams
    have hnd : ((teams.filter fun t =>
        shouldInsertAutoNote notes t.1 w t.2.1 t.2.2).map fun t => t.1).Nodup :=
      hnodup.sublist (hsl.map fun t => t.1)
    exact List.nodup_iff_count_le_one.mp hnd team

theorem c9_auto_note_guard_witness :
    (shouldInsertAutoNote [] "t1" 3 10 6 = true ↔
      (0 < (10 : ℚ) ∧ teamProgressPct 6 10 < 100 ∧ 0 < incompleteLeads 10 6 ∧
        noteExistsFor [] "t1" 3 = false)) ∧
    (renderAutoNotes [] 3 [("t1", 10, 6)]).count "t1" ≤ 1 :=
  c9_auto_note_guard [] "t1" 3 10 6 [("t1", 10, 6)] (by decide)

/-! ## Frame condition of the sales update -/

theorem lead_id_inj (db : List Lead) (hnodup : (db.map Lead.id).Nodup) :
    ∀ l1 ∈ db, ∀ l2 ∈ db, l1.id = l2.id → l1 = l2 := by
  induction db with
  | nil =>
    intro l1 h1
    simp at h1
  | cons a rest ih =>
    have hcons : (Lead.id a :: rest.map Lead.id).Nodup := by simpa using hnodup
    rcases List.nodup_cons.mp hcons with ⟨hmem, hrest⟩
    intro l1 h1 l2 h2 heq
    rcases List.mem_cons.mp h1 with h1a | h1t
    · rcases List.mem_cons.mp h2 with h2a | h2t
      · rw [h1a, h2a]
      · exfalso
        have hl2 : l2.id ∈ rest.map Lead.id := List.mem_map_of_mem Lead.id h2t
        rw [← heq, h1a] at hl2
        exact hmem hl2
    · rcases List.mem_cons.mp h2 with h2a | h2t
      · exfalso
        have hl1 : l1.id ∈ rest.map Lead.id := List.mem_map_of_mem Lead.id h1t
        rw [heq, h2a] at hl1
        exact hmem hl1
      · exact ih hrest l1 h1t l2 h2t heq

theorem selected_matches (db : List Lead) (t o : String) (c : Nat)
    (hnodup : (db.map Lead.id).Nodup) (l : Lead) (hl : l ∈ db)
    (hid : l.id ∈ selectUnconverted db t o c) :
    matchesUnconverted t o l = true := by
  have hid2 : l.id ∈ (db.filter (matchesUnconverted t o)).map Lead.id :=
    List.mem_of_mem_take hid
  rcases List.mem_map.mp hid2 with ⟨l2, hl2, heq⟩
  have hl2db : l2 ∈ db := List.mem_of_mem_filter hl2
  have hll2 : l = l2 := lead_id_inj db hnodup l hl l2 hl2db heq.symm
  rw [hll2]
  exact List.of_mem_filter hl2

theorem update_sales_db_eq (db : List Lead) (t o : String) (c : Nat)
    (v : ℚ) (d : String) :
    (update_sales db t o c v d).db
      = db.map fun l =>
          if (selectUnconverted db t o c).contains l.id then
            { l with
              converted := true,
              sales_value := per_lead_value v (selectUnconverted db t o c).length,
              updated_at := some d }
          else l := by
  by_cases hemp : (selectUnconverted db t o c).isEmpty = true
  · have hnil : selectUnconverted db t o c = [] := List.isEmpty_iff.mp hemp
    simp [update_sales, hemp, hnil]
  · simp [update_sales, hemp]

/-- C10: when the id column of the leads table is duplicate-free,
`update_sales` (src/app.py lines 256-283) selects min(requested count,
available unconverted leads) rows, reports exactly that many updates,
preserves the table length, and row by row: a selected row did match the
given team and owner with `converted = false` and only its `converted`,
`sales_value` and `updated_at` fields change (to `true`, the per-lead
share, and the given date), while every non-selected row is completely
unchanged. -/
theorem c10_update_sales_frame (db : List Lead) (t o : String) (c : Nat)
    (v : ℚ) (d : String) (hnodup : (db.map Lead.id).Nodup) :
    (selectUnconverted db t o c).length
        = min c (db.filter (matchesUnconverted t o)).length ∧
    (update_sales db t o c v d).updatedCount
        = (selectUnconverted db t o c).length ∧
    (update_sales db t o c v d).db.length = db.length ∧
    ∀ i (h : i < db.length) (h2 : i < (update_sales db t o c v d).db.length),
      ((db.get ⟨i, h⟩).id ∈ selectUnconverted db t o c →
        matchesUnconverted t o (db.get ⟨i, h⟩) = true ∧
        (update_sales db t o c v d).db.get ⟨i, h2⟩
          = { db.get ⟨i, h⟩ with
              converted := true,
              sales_value := per_lead_value v (selectUnconverted db t o c).length,
              updated_at := some d }) ∧
      ((db.get ⟨i, h⟩).id ∉ selectUnconverted db t o c →
        (update_sales db t o c v d).db.get ⟨i, h2⟩ = db.get ⟨i, h⟩) := by
  have hdbeq := update_sales_db_eq db t o c v d
  refine ⟨?_, ?_, ?_, ?_⟩
  · simp [selectUnconverted]
  · by_cases hemp : (selectUnconverted db t o c).isEmpty = true
    · have hnil : selectUnconverted db t o c = [] := List.isEmpty_iff.mp hemp
      simp [update_sales, hemp, hnil]
    · simp [update_sales, hemp]
  · rw [hdbeq, List.length_map]
  · intro i h h2
    have h2m : i < (db.map fun l =>
        if (selectUnconverted db t o c).contains l.id then
          { l with
            converted := true,
            sales_value := per_lead_value v (selectUnconverted db t o c).length,
            updated_at := some d }
        else l).length := by
      rw [← hdbeq]
      exact h2
    have hget : (update_sales db t o c v d).db.get ⟨i, h2⟩
        = (db.map fun l =>
            if (selectUnconverted db t o c).contains l.id then
              { l with
                converted := true,
                sales_value := per_lead_value v (selectUnconverted db t o c).length,
                updated_at := some d }
            else l).get ⟨i, h2m⟩ :=
      List.get_of_eq hdbeq ⟨i, h2⟩
    have hmap : (db.map fun l =>
        if (selectUnconverted db t o c).contains l.id then
          { l with
            converted := true,
            sales_value := per_lead_value v (selectUnconverted db t o c).length,
            updated_at := some d }
        else l).get ⟨i, h2m⟩
        = if (selectUnconverted db t o c).contains (db.get ⟨i, h⟩).id then
            { db.get ⟨i, h⟩ with
              converted := true,
              sales_value := per_lead_value v (selectUnconverted db t o c).length,
              updated_at := some d }
          else db.get ⟨i, h⟩ := by
      simp
    rw [hget, hmap]
    constructor
    · intro hin
      have hcont : (selectUnconverted db t o c).contains (db.get ⟨i, h⟩).id = true :=
        List.elem_iff.mpr hin
      refine ⟨selected_matches db t o c hnodup _ (List.get_mem db i h) hin, ?_⟩
      rw [if_pos hcont]
    · intro hnot
      have hnottrue :
          ¬ (selectUnconverted db t o c).contains (db.get ⟨i, h⟩).id = true := by
        intro hcon
        exact hnot (List.elem_iff.mp hcon)
      rw [if_neg hnottrue]

theorem c10_update_sales_frame_witness :
    (update_sales [Lead.mk 1 "t1" "u1" "d" false 0 none,
        Lead.mk 2 "t1" "u2" "d" false 0 none] "t1" "u1" 5 100 "d2").updatedCount
      = (selectUnconverted [Lead.mk 1 "t1" "u1" "d" false 0 none,
          Lead.mk 2 "t1" "u2" "d" false 0 none] "t1" "u1" 5).length ∧
    (update_sales [Lead.mk 1 "t1" "u1" "d" false 0 none,
        Lead.mk 2 "t1" "u2" "d" false 0 none] "t1" "u1" 5 100 "d2").db.get
        ⟨1, by decide⟩
      = Lead.mk 2 "t1" "u2" "d" false 0 none := by
  have hmain := c10_update_sales_frame
    [Lead.mk 1 "t1" "u1" "d" false 0 none, Lead.mk 2 "t1" "u2" "d" false 0 none]
    "t1" "u1" 5 100 "d2" (by decide)
  refine ⟨hmain.2.1, ?_⟩
  exact (hmain.2.2.2 1 (by decide) (by decide)).2 (by decide)
